import Mathlib

/-!
Shallow embedding of the database-access instrumentation and hook layer:
`internal/hooks/hooks.go` (hook registry) and `internal/sqlutil/trace.go`
(query interceptor, writer registry, connection factory).

Go's mutable package-level state is modelled by explicit state passing;
each Go function becomes a Lean function from the pre-state (plus its
arguments) to its results and post-state.  Callback invocation and log
emission are modelled as traces: a function that calls callbacks or emits
log lines returns, alongside its Go results, the finite sequence of those
events in the order they happen on the calling thread.
-/

set_option autoImplicit false

universe u v

namespace Hooks

/-- State of the `hooks` package: the package-level variables `hookMap`
(Go `map[string][]func(interface{})`, modelled as a total function that is
`[]` outside its domain, matching Go's nil lookup) and `enabled`.
The callback type `Cb` abstracts Go's `func(interface{})`. -/
structure HookState (Cb : Type u) where
  hookMap : String → List Cb
  enabled : Bool

/-- The package's initial state: empty `hookMap`, `enabled = false`. -/
def initialHookState (Cb : Type u) : HookState Cb :=
  { hookMap := fun _ => [], enabled := false }

/-- `Enable()`: flips the `enabled` flag. -/
def Enable {Cb : Type u} (s : HookState Cb) : HookState Cb :=
  { s with enabled := true }

/-- `Attach(kind, callback)`: no-op when not enabled; otherwise appends
`callback` to `hookMap[kind]`. -/
def Attach {Cb : Type u} (s : HookState Cb) (kind : String) (callback : Cb) :
    HookState Cb :=
  if s.enabled = false then s
  else
    { s with
      hookMap := fun k =>
        if k = kind then s.hookMap k ++ [callback] else s.hookMap k }

/-- `callbacks(kind)`: snapshot of `hookMap[kind]`. -/
def callbacks {Cb : Type u} (s : HookState Cb) (kind : String) : List Cb :=
  s.hookMap kind

/-- `Run(kind, data)`: returns the (unchanged) state together with the
invocation trace: the list of `(callback, payload)` calls `Run` performs
synchronously, in order, before returning.  When disabled the trace is
empty. -/
def Run {Cb : Type u} {Payload : Type v} (s : HookState Cb) (kind : String)
    (data : Payload) : HookState Cb × List (Cb × Payload) :=
  if s.enabled = false then (s, [])
  else (s, (callbacks s kind).map (fun cb => (cb, data)))

/-- A sequence of `Attach` calls, each given as a `(kind, callback)` pair. -/
def attachSeq {Cb : Type u} (s : HookState Cb) (l : List (String × Cb)) :
    HookState Cb :=
  l.foldl (fun s2 q => Attach s2 q.1 q.2) s

theorem enabled_attach {Cb : Type u} (s : HookState Cb) (kind : String)
    (cb : Cb) : (Attach s kind cb).enabled = s.enabled := by
  unfold Attach
  by_cases h : s.enabled = false <;> simp [h]

theorem enabled_attachSeq {Cb : Type u} (s : HookState Cb)
    (l : List (String × Cb)) : (attachSeq s l).enabled = s.enabled := by
  induction l generalizing s with
  | nil => rfl
  | cons q rest ih =>
      simp only [attachSeq, List.foldl_cons] at *
      rw [ih, enabled_attach]

theorem hookMap_attach_enabled {Cb : Type u} (s : HookState Cb)
    (kind K : String) (cb : Cb) (hs : s.enabled = true) :
    (Attach s kind cb).hookMap K =
      if kind = K then s.hookMap K ++ [cb] else s.hookMap K := by
  unfold Attach
  rw [hs]
  by_cases h : K = kind <;> simp [h, eq_comm]

theorem hookMap_attachSeq_enabled {Cb : Type u} (s : HookState Cb)
    (l : List (String × Cb)) (K : String) (hs : s.enabled = true) :
    (attachSeq s l).hookMap K =
      s.hookMap K ++ (l.filter (fun q => q.1 = K)).map Prod.snd := by
  induction l generalizing s with
  | nil => simp [attachSeq]
  | cons q rest ih =>
      simp only [attachSeq, List.foldl_cons] at *
      have hs2 : (Attach s q.1 q.2).enabled = true := by
        rw [enabled_attach, hs]
      rw [ih _ hs2, hookMap_attach_enabled _ _ _ _ hs]
      by_cases h : q.1 = K <;> simp [h]

/-- C3: after `Enable()`, `Run(K, p)` invokes exactly the callbacks
previously attached under `K` — those already in the table plus those of
any later `Attach` sequence whose kind is `K`, each once per attachment —
with payload `p`, in attachment order; the trace is the complete list of
invocations `Run` performs synchronously before returning. -/
theorem run_after_enable_invokes_attached {Cb : Type u} {Payload : Type v}
    (s : HookState Cb) (l : List (String × Cb)) (K : String) (p : Payload) :
    (Run (attachSeq (Enable s) l) K p).2 =
      (s.hookMap K ++ (l.filter (fun q => q.1 = K)).map Prod.snd).map
        (fun cb => (cb, p)) := by
  have he : (attachSeq (Enable s) l).enabled = true := by
    rw [enabled_attachSeq]; rfl
  have hm : (attachSeq (Enable s) l).hookMap K =
      s.hookMap K ++ (l.filter (fun q => q.1 = K)).map Prod.snd := by
    rw [hookMap_attachSeq_enabled _ _ _ rfl]; rfl
  unfold Run callbacks
  rw [he, hm]
  simp

/-- C4: while the registry is disabled (`Enable()` never called, so
`enabled = false`), `Attach(K, cb)` followed by `Run(K, p)` invokes no
callback at all and both calls leave the hook table (the whole state)
unchanged. -/
theorem attach_run_noop_when_disabled {Cb : Type u} {Payload : Type v}
    (s : HookState Cb) (K : String) (cb : Cb) (p : Payload)
    (h : s.enabled = false) :
    Attach s K cb = s ∧ (Run (Attach s K cb) K p).1 = s ∧
      (Run (Attach s K cb) K p).2 = [] := by
  have ha : Attach s K cb = s := by unfold Attach; rw [h]; simp
  refine ⟨ha, ?_, ?_⟩ <;> rw [ha] <;> unfold Run <;> rw [h] <;> simp

/-- Witness for C4 at the initial state with `Nat` callbacks and payloads. -/
theorem attach_run_noop_when_disabled_witness :
    (initialHookState Nat).enabled = false ∧
      (Attach (initialHookState Nat) "new_event" 0 = initialHookState Nat ∧
        (Run (Attach (initialHookState Nat) "new_event" 0) "new_event" 7).1 =
          initialHookState Nat ∧
        (Run (Attach (initialHookState Nat) "new_event" 0) "new_event" 7).2 =
          []) :=
  ⟨rfl, attach_run_noop_when_disabled (initialHookState Nat) "new_event" 0 7 rfl⟩

end Hooks

namespace Sqlutil

/-- Modelled from the spec: a `Writer` is "a capability exposing a short
human-readable description of the logical owner of a connection"; the
interceptor calls its `Safe()` method to obtain that description (the
`Writer` interface lives outside `src/`). -/
structure Writer where
  safe : String
deriving DecidableEq

/-- A non-nil Go `error`.  `eof` is the `io.EOF` end-of-data sentinel;
every other error is opaque to this layer. -/
inductive GoError where
  | eof
  | err (msg : String)
deriving DecidableEq

/-- One emitted log line.  `infoLine` is `logrus.Infof` (the
elevated-severity unsafe-write audit entry); `rowDebug` is a
`logrus.Debug` line from row iteration; `execDebug` is the per-statement
`logrus.Debug` trace entry with its `error` and `safe` fields, statement
text and bound arguments (the wall-clock `duration` field is outside the
embedding). -/
inductive LogLine where
  | infoLine (s : String)
  | rowDebug (s : String)
  | execDebug (e : Option GoError) (safe : String) (query : String)
      (args : List String)
deriving DecidableEq

/-- Go map lookup in `dbToWriter`.  The map is modelled as an association
list in which the most recent insertion comes first, so lookup returns the
latest binding for a key, matching Go's overwrite-on-insert maps; a missing
key yields `none` (Go: a nil `Writer`). -/
def lookupWriter : List (String × Writer) → String → Option Writer
  | [], _ => none
  | (k2, w) :: rest, k => if k2 = k then some w else lookupWriter rest k

/-- Modelled from the spec: `strings.HasPrefix` (Go standard library) — the
"literal, case-sensitive prefix" test used by the interceptor. -/
def strStartsWith (s pre : String) : Bool :=
  pre.data.isPrefixOf s.data

/-- The safety-label resolution shared by `StmtQueryContext` and
`StmtExecContext` (lines 46-55 and 68-77 of `trace.go` are identical):
`key := ctx.Value(CtxDBInstance)` is the optional token carried by the
call's context; with no token `safe` stays `""`; an unregistered token
yields the `fmt.Sprintf("no writer for key %s", key)` label; a registered
token yields `w.Safe()`. -/
def resolveSafe (reg : List (String × Writer)) (key : Option String) :
    String :=
  match key with
  | none => ""
  | some k =>
    match lookupWriter reg k with
    | none => "no writer for key " ++ k
    | some w => w.safe

/-- The guard of the unsafe-write audit entry, shared verbatim by
`StmtQueryContext` and `StmtExecContext`:
`safe != "" && !strings.HasPrefix(query, "SELECT ")`. -/
def writeAuditFires (reg : List (String × Writer)) (key : Option String)
    (query : String) : Bool :=
  (resolveSafe reg key != "") && !(strStartsWith query "SELECT ")

/-- `traceInterceptor.StmtQueryContext`.  The delegated underlying call
`stmt.QueryContext(ctx, args)` is modelled by the function `stmt` from the
bound arguments to its `(rows, error)` outcome (`Rows` abstracts
`driver.Rows`).  The result is the pair returned to the caller together
with the log lines emitted, in order: the conditional unsafe-write audit
entry, then the unconditional per-statement debug entry. -/
def stmtQueryContext {Rows : Type u} (reg : List (String × Writer))
    (key : Option String) (stmt : List String → Rows × Option GoError)
    (query : String) (args : List String) :
    (Rows × Option GoError) × List LogLine :=
  let r := stmt args
  let safe := resolveSafe reg key
  let audit :=
    if (safe != "") && !(strStartsWith query "SELECT ") then
      [LogLine.infoLine ("unsafe: " ++ safe ++ " -- " ++ query)]
    else []
  (r, audit ++ [LogLine.execDebug r.2 safe query args])

/-- `traceInterceptor.StmtExecContext`: identical to `StmtQueryContext`
except that it delegates to `stmt.ExecContext` and returns a
`driver.Result` (abstracted by `Result`). -/
def stmtExecContext {Result : Type u} (reg : List (String × Writer))
    (key : Option String) (stmt : List String → Result × Option GoError)
    (query : String) (args : List String) :
    (Result × Option GoError) × List LogLine :=
  let r := stmt args
  let safe := resolveSafe reg key
  let audit :=
    if (safe != "") && !(strStartsWith query "SELECT ") then
      [LogLine.infoLine ("unsafe: " ++ safe ++ " -- " ++ query)]
    else []
  (r, audit ++ [LogLine.execDebug r.2 safe query args])

/-- Modelled from the spec: `fmt.Sprintf("%q", v)` — the "quoted rendering"
of a fetched value.  Values are opaque strings here, so the rendering wraps
the value in double quotes (escaping inside the value is Go `fmt`
machinery, irrelevant to the claims). -/
def goQuote (s : String) : String :=
  "\"" ++ s ++ "\""

/-- The " | "-separated join used by `RowsNext`: for the column names it is
`strings.Join(cols, " | ")`; for the values the builder loop appends
`" | "` after element `i` exactly when `i+1 <= len(dest)-1`, i.e. between
consecutive elements — in both cases an intercalation. -/
def joinBar (l : List String) : String :=
  String.intercalate " | " l

/-- `traceInterceptor.RowsNext`.  The underlying `rows.Next(dest)` call is
modelled by its outcome: the values it writes into `dest` and the error it
returns (`none` = nil); `cols` is `rows.Columns()`.  The result is the
error returned to the caller together with the emitted log lines: nothing
on `io.EOF`, otherwise the joined column names and the joined quoted
values. -/
def rowsNext (cols : List String) (dest : List String)
    (e : Option GoError) : Option GoError × List LogLine :=
  if e = some GoError.eof then (e, [])
  else
    (e, [LogLine.rowDebug (joinBar cols),
      LogLine.rowDebug (joinBar (dest.map goQuote))])

/-- Modelled from the spec: `config.DatabaseOptions` (outside `src/`) — a
"connection descriptor (scheme-discriminated: embedded file-backed vs.
networked) plus pool sizing (max open/idle connections, max connection
lifetime)". -/
structure DatabaseOptions where
  connectionString : String
  maxOpenConns : Nat
  maxIdleConns : Nat
  connMaxLifetime : Nat
deriving DecidableEq

/-- Modelled from the spec: `ConnectionString.IsSQLite` (outside `src/`) —
the embedded file-backed descriptor is recognised by its "file" scheme. -/
def isSQLite (cs : String) : Bool :=
  strStartsWith cs "file:"

/-- Modelled from the spec: `ConnectionString.IsPostgres` (outside `src/`)
— the networked descriptor is recognised by its "postgres" scheme. -/
def isPostgres (cs : String) : Bool :=
  strStartsWith cs "postgres://"

/-- Modelled from the spec: `SQLiteDriverName()` (outside `src/`) — the
driver name selected for the embedded backend. -/
def SQLiteDriverName : String :=
  "sqlite3"

/-- Modelled from the spec: `ParseFileURI` (outside `src/`) — an
embedded-backend descriptor is "parsed into a local file path"; a
non-`file:` descriptor is malformed. -/
def ParseFileURI (cs : String) : Except String String :=
  if isSQLite cs then Except.ok (cs.drop 5)
  else Except.error "not a file URI"

/-- The observable outcome of a successful `Open`: the driver name and DSN
passed to `sql.Open`, and the pool limits applied to the handle afterwards
(`none` = the corresponding `Set...` call was not made). -/
structure DBHandle where
  driverName : String
  dsn : String
  maxOpen : Option Nat
  maxIdle : Option Nat
  maxLifetime : Option Nat
deriving DecidableEq

/-- Modelled from the spec: `sql.Open` (Go standard library) — yields a
fresh handle for the given driver name and DSN with no pool limits applied
yet (`registerDrivers` in `init()` registers both plain and `-trace`
driver variants, so the open itself succeeds). -/
def sqlOpen (driverName dsn : String) : DBHandle :=
  { driverName := driverName, dsn := dsn, maxOpen := none, maxIdle := none,
    maxLifetime := none }

/-- The tail of `Open` after the scheme switch has selected `driverName0`
and `dsn`: append `-trace` when the process-wide trace toggle
(`DENDRITE_TRACE_SQL=1`, read once at startup, passed here as `tracing`)
is set, call `sql.Open`, then apply the three pool limits from `opts`
exactly when `driverName != SQLiteDriverName()`. -/
def openPool (tracing : Bool) (driverName0 dsn : String)
    (opts : DatabaseOptions) : Except String DBHandle :=
  let driverName := if tracing then driverName0 ++ "-trace" else driverName0
  let db := sqlOpen driverName dsn
  if driverName ≠ SQLiteDriverName then
    Except.ok
      { db with
        maxOpen := some opts.maxOpenConns,
        maxIdle := some opts.maxIdleConns,
        maxLifetime := some opts.connMaxLifetime }
  else Except.ok db

/-- `Open(dbProperties)`: classify the connection descriptor by scheme —
embedded (`file:`) descriptors are parsed to a path (a parse failure is
wrapped as `ParseFileURI: ...`), networked (`postgres://`) descriptors
pass through verbatim, and any other descriptor fails with the
configuration error `invalid database connection string "..."` — then
open and configure the handle via `openPool`. -/
def Open (tracing : Bool) (opts : DatabaseOptions) :
    Except String DBHandle :=
  if isSQLite opts.connectionString then
    match ParseFileURI opts.connectionString with
    | Except.error e => Except.error ("ParseFileURI: " ++ e)
    | Except.ok dsn => openPool tracing SQLiteDriverName dsn opts
  else if isPostgres opts.connectionString then
    openPool tracing "postgres" opts.connectionString opts
  else
    Except.error
      ("invalid database connection string " ++ goQuote opts.connectionString)

/-- Little-endian base-10 digits of `n`, with enough fuel; structural in
the fuel so that it evaluates by kernel reduction. -/
def decDigitsAux : Nat → Nat → List Nat
  | 0, _ => []
  | fuel + 1, n => if n = 0 then [] else n % 10 :: decDigitsAux fuel (n / 10)

/-- Modelled from the spec: `fmt.Sprintf("%d", n)` (Go standard library) —
the decimal rendering of the token counter, most-significant digit
first. -/
def natToDec (n : Nat) : String :=
  if n = 0 then "0"
  else (((decDigitsAux n n).map Nat.digitChar).reverse).asString

/-- State of the `sqlutil` package relevant to the writer registry: the
package-level `dbToWriter` map and the `instCount` token counter. -/
structure SqlState where
  dbToWriter : List (String × Writer)
  instCount : Nat

/-- The package's initial state, set up by `init()`: empty `dbToWriter`,
`instCount = 0`. -/
def initSqlState : SqlState :=
  { dbToWriter := [], instCount := 0 }

/-- `OpenWithWriter(dbProperties, w)`: perform `Open`; on error return
`(nil, nil, err)` with the state untouched; on success increment
`instCount`, mint the token `fmt.Sprintf("%d", instCount)`, register
`dbToWriter[token] = w`, and return the handle together with the context
value stored under `CtxDBInstance` (the minted token; a context with no
token is `none`). -/
def OpenWithWriter (tracing : Bool) (s : SqlState) (opts : DatabaseOptions)
    (w : Writer) : Except String (DBHandle × Option String) × SqlState :=
  match Open tracing opts with
  | Except.error e => (Except.error e, s)
  | Except.ok db =>
    let instCount := s.instCount + 1
    let ctxVal := natToDec instCount
    (Except.ok (db, some ctxVal),
      { dbToWriter := (ctxVal, w) :: s.dbToWriter, instCount := instCount })

/-- A sequence of sequential `OpenWithWriter` calls, threading the
package state. -/
def runOpens (tracing : Bool) (s : SqlState)
    (ops : List (DatabaseOptions × Writer)) : SqlState :=
  match ops with
  | [] => s
  | (o, w) :: rest => runOpens tracing (OpenWithWriter tracing s o w).2 rest

/-- Registry invariant: every registered token was minted by the counter —
it is the decimal rendering of some positive value not exceeding the
current `instCount`.  It holds in `initSqlState` and is preserved by
`OpenWithWriter`. -/
def GoodState (s : SqlState) : Prop :=
  ∀ p ∈ s.dbToWriter, ∃ m : Nat, 0 < m ∧ m ≤ s.instCount ∧ p.1 = natToDec m

theorem noWriterLabel_ne_empty (k : String) :
    "no writer for key " ++ k ≠ "" := by
  intro h
  have h2 : ("no writer for key " ++ k).data = "".data := congrArg String.data h
  rw [String.data_append] at h2
  simp at h2

/-- C7: on a `RowsNext` call whose underlying fetch returns the `io.EOF`
sentinel, no log lines are emitted; on every other fetch (success or a
real error) the joined column names and the joined quoted renderings of
the fetched values are logged. -/
theorem rowsNext_logs (cols dest : List String) (e : Option GoError) :
    (e = some GoError.eof → (rowsNext cols dest e).2 = []) ∧
    (e ≠ some GoError.eof →
      (rowsNext cols dest e).2 =
        [LogLine.rowDebug (joinBar cols),
          LogLine.rowDebug (joinBar (dest.map goQuote))]) := by
  unfold rowsNext
  by_cases h : e = some GoError.eof <;> simp [h]

/-- Witness for C7: an `io.EOF` fetch logs nothing; a successful fetch
logs the column names and the quoted values. -/
theorem rowsNext_logs_witness :
    (rowsNext ["id"] ["x"] (some GoError.eof)).2 = [] ∧
      (rowsNext ["id"] ["x"] none).2 =
        [LogLine.rowDebug "id", LogLine.rowDebug "\"x\""] :=
  ⟨(rowsNext_logs ["id"] ["x"] (some GoError.eof)).1 rfl,
    (rowsNext_logs ["id"] ["x"] none).2 (by decide)⟩

/-- C8: the interceptor is purely observational — `StmtQueryContext`,
`StmtExecContext` and `RowsNext` return exactly the value and exactly the
error produced by the delegated underlying call, unmodified. -/
theorem interceptor_observational {Rows Result : Type u}
    (reg : List (String × Writer)) (key : Option String)
    (stmtQ : List String → Rows × Option GoError)
    (stmtE : List String → Result × Option GoError)
    (query : String) (args : List String)
    (cols dest : List String) (e : Option GoError) :
    (stmtQueryContext reg key stmtQ query args).1 = stmtQ args ∧
    (stmtExecContext reg key stmtE query args).1 = stmtE args ∧
    (rowsNext cols dest e).1 = e := by
  refine ⟨rfl, rfl, ?_⟩
  unfold rowsNext
  by_cases h : e = some GoError.eof <;> simp [h]

/-- C1 (counterexample to the claim as stated): an `INSERT` whose context
carries the token `"1"` while the registry is empty — so no registered
Writer exists for it — nevertheless emits the elevated-severity
unsafe-write audit entry, because the `no writer for key` label is
non-empty. -/
theorem stmt_audit_claim_counterexample :
    LogLine.infoLine "unsafe: no writer for key 1 -- INSERT INTO t VALUES (1)"
        ∈ (stmtQueryContext [] (some "1") (fun _ => (Unit.unit, (none : Option GoError)))
            "INSERT INTO t VALUES (1)" []).2 ∧
      lookupWriter [] "1" = none := by
  constructor
  · simp [stmtQueryContext, resolveSafe, lookupWriter]
    decide
  · rfl

/-- C1 (amended): the unsafe-write audit entry is emitted iff the
resolved safety label is non-empty — i.e. the context carries a token and
either the token is unregistered (yielding the `no writer for key` label)
or its registered Writer's description is non-empty — and the statement
does not begin with the literal prefix `SELECT `; a statement whose
context carries no token never triggers it.  Both statement paths emit
the entry exactly under that guard. -/
theorem stmt_audit_fires_iff {Rows Result : Type u}
    (reg : List (String × Writer)) (key : Option String) (query : String)
    (stmtQ : List String → Rows × Option GoError)
    (stmtE : List String → Result × Option GoError)
    (args : List String) :
    (writeAuditFires reg key query = true ↔
      ((∃ k, key = some k ∧
          (lookupWriter reg k = none ∨
            ∃ w, lookupWriter reg k = some w ∧ w.safe ≠ "")) ∧
        strStartsWith query "SELECT " = false)) ∧
    (LogLine.infoLine ("unsafe: " ++ resolveSafe reg key ++ " -- " ++ query)
        ∈ (stmtQueryContext reg key stmtQ query args).2 ↔
      writeAuditFires reg key query = true) ∧
    (LogLine.infoLine ("unsafe: " ++ resolveSafe reg key ++ " -- " ++ query)
        ∈ (stmtExecContext reg key stmtE query args).2 ↔
      writeAuditFires reg key query = true) ∧
    writeAuditFires reg none query = false := by
  refine ⟨?_, ?_, ?_, rfl⟩
  · unfold writeAuditFires
    cases key with
    | none => simp [resolveSafe]
    | some k =>
        cases hl : lookupWriter reg k with
        | none =>
            simp [resolveSafe, hl, bne_iff_ne, noWriterLabel_ne_empty k]
        | some w =>
            simp [resolveSafe, hl, bne_iff_ne]
  · unfold stmtQueryContext writeAuditFires
    by_cases hf :
        (resolveSafe reg key != "") && !(strStartsWith query "SELECT ") <;>
      simp [hf]
  · unfold stmtExecContext writeAuditFires
    by_cases hf :
        (resolveSafe reg key != "") && !(strStartsWith query "SELECT ") <;>
      simp [hf]

/-- Witness for C1 (amended), matching the spec's three test cases: an
`INSERT` with a registered Writer fires the audit, a `SELECT` with the
same Writer does not, and the same `INSERT` with no token does not. -/
theorem stmt_audit_fires_iff_witness :
    writeAuditFires [("1", Writer.mk "roomserver")] (some "1")
        "INSERT INTO t VALUES (1)" = true ∧
      writeAuditFires [("1", Writer.mk "roomserver")] (some "1")
        "SELECT * FROM t" = false ∧
      writeAuditFires [("1", Writer.mk "roomserver")] none
        "INSERT INTO t VALUES (1)" = false :=
  ⟨(stmt_audit_fires_iff [("1", Writer.mk "roomserver")] (some "1")
        "INSERT INTO t VALUES (1)" (fun _ => (Unit.unit, none))
        (fun _ => (Unit.unit, none)) []).1.mpr
      ⟨⟨"1", rfl, Or.inr ⟨Writer.mk "roomserver", rfl, by decide⟩⟩, by decide⟩,
    by decide,
    (stmt_audit_fires_iff [("1", Writer.mk "roomserver")] none
        "INSERT INTO t VALUES (1)" (fun _ => (Unit.unit, none))
        (fun _ => (Unit.unit, none)) []).2.2.2⟩

/-- C5: `Open` on a connection descriptor that is neither the embedded
(`file:`) kind nor the networked (`postgres://`) kind returns the
configuration error naming the descriptor, and hence no handle. -/
theorem open_unrecognized_scheme (tracing : Bool) (opts : DatabaseOptions)
    (h1 : isSQLite opts.connectionString = false)
    (h2 : isPostgres opts.connectionString = false) :
    Open tracing opts =
      Except.error
        ("invalid database connection string " ++
          goQuote opts.connectionString) := by
  unfold Open
  simp [h1, h2]

/-- Witness for C5 at a `mysql://` descriptor. -/
theorem open_unrecognized_scheme_witness :
    isSQLite "mysql://h/db" = false ∧ isPostgres "mysql://h/db" = false ∧
      Open false (DatabaseOptions.mk "mysql://h/db" 7 3 5) =
        Except.error "invalid database connection string \"mysql://h/db\"" :=
  ⟨by decide, by decide,
    open_unrecognized_scheme false (DatabaseOptions.mk "mysql://h/db" 7 3 5)
      (by decide) (by decide)⟩

/-- C2 (code evaluated at the failing input): with the trace toggle set,
opening an embedded (`file:`) descriptor yields the driver name
`sqlite3-trace`, which differs from `SQLiteDriverName()`, so all three
pool limits from the options are applied to the embedded handle; with the
toggle unset they are not. -/
theorem open_sqlite_trace_applies_pool_limits :
    Open true (DatabaseOptions.mk "file:test.db" 7 3 5) =
      Except.ok (DBHandle.mk "sqlite3-trace" "test.db" (some 7) (some 3)
        (some 5)) ∧
    Open false (DatabaseOptions.mk "file:test.db" 7 3 5) =
      Except.ok (DBHandle.mk "sqlite3" "test.db" none none none) :=
  ⟨rfl, rfl⟩

/-- C10: when `Open` fails, `OpenWithWriter` returns no handle and no
context, passes the very same error through, and leaves the token counter
and the token-to-Writer registry untouched. -/
theorem openWithWriter_error_passthrough (tracing : Bool) (s : SqlState)
    (opts : DatabaseOptions) (w : Writer) (e : String)
    (h : Open tracing opts = Except.error e) :
    OpenWithWriter tracing s opts w = (Except.error e, s) := by
  unfold OpenWithWriter
  rw [h]

/-- Witness for C10 at an unrecognized descriptor and the initial
state. -/
theorem openWithWriter_error_passthrough_witness :
    Open false (DatabaseOptions.mk "mysql://h/db" 7 3 5) =
        Except.error "invalid database connection string \"mysql://h/db\"" ∧
      OpenWithWriter false initSqlState (DatabaseOptions.mk "mysql://h/db" 7 3 5)
          (Writer.mk "roomserver") =
        (Except.error "invalid database connection string \"mysql://h/db\"",
          initSqlState) :=
  ⟨rfl,
    openWithWriter_error_passthrough false initSqlState
      (DatabaseOptions.mk "mysql://h/db" 7 3 5) (Writer.mk "roomserver")
      "invalid database connection string \"mysql://h/db\"" rfl⟩

/-- C6: every successful `OpenWithWriter(options, W)` returns a context
carrying a token that resolves to W's description; a context with no
token resolves the empty safety label; and any token absent from the
registry resolves the explicit `no writer for key` label, which is
distinct from the empty label. -/
theorem openWithWriter_token_resolution (tracing : Bool) (s : SqlState)
    (opts : DatabaseOptions) (w : Writer) (db : DBHandle)
    (ctx : Option String) (s' : SqlState)
    (h : OpenWithWriter tracing s opts w = (Except.ok (db, ctx), s')) :
    ∃ tok, ctx = some tok ∧
      resolveSafe s'.dbToWriter (some tok) = w.safe ∧
      resolveSafe s'.dbToWriter none = "" ∧
      ∀ t, lookupWriter s'.dbToWriter t = none →
        resolveSafe s'.dbToWriter (some t) = "no writer for key " ++ t ∧
        resolveSafe s'.dbToWriter (some t) ≠ "" := by
  unfold OpenWithWriter at h
  cases hOpen : Open tracing opts with
  | error e => rw [hOpen] at h; exact absurd h (by simp)
  | ok db0 =>
      rw [hOpen] at h
      simp only [Prod.mk.injEq, Except.ok.injEq] at h
      obtain ⟨⟨hdb, hctx⟩, hs⟩ := h
      refine ⟨natToDec (s.instCount + 1), hctx.symm, ?_, ?_, ?_⟩
      · rw [← hs]
        simp [resolveSafe, lookupWriter]
      · rfl
      · intro t ht
        constructor
        · simp [resolveSafe, ht]
        · simp [resolveSafe, ht]
          exact noWriterLabel_ne_empty t

/-- Witness for C6: the first open from the initial state mints token
`"1"`, which resolves to the Writer's description; the token `"2"` is
unregistered there and resolves the non-empty `no writer for key 2`
label. -/
theorem openWithWriter_token_resolution_witness :
    resolveSafe [("1", Writer.mk "roomserver")] (some "1") = "roomserver" ∧
      resolveSafe [("1", Writer.mk "roomserver")] none = "" ∧
      resolveSafe [("1", Writer.mk "roomserver")] (some "2") =
        "no writer for key 2" := by
  have h := openWithWriter_token_resolution false initSqlState
    (DatabaseOptions.mk "postgres://u@h/db" 1 1 1) (Writer.mk "roomserver")
    (DBHandle.mk "postgres" "postgres://u@h/db" (some 1) (some 1) (some 1))
    (some "1")
    (SqlState.mk [("1", Writer.mk "roomserver")] 1) rfl
  obtain ⟨tok, htok, h1, h2, h3⟩ := h
  have htok1 : tok = "1" := by injection htok.symm
  subst htok1
  exact ⟨h1, h2, (h3 "2" (by decide)).1⟩

/-- Value of a little-endian base-10 digit list (proof infrastructure for
the injectivity of `natToDec`, not part of the embedding). -/
def ofDecDigits : List Nat → Nat
  | [] => 0
  | d :: rest => d + 10 * ofDecDigits rest

/-- Inverse of `Nat.digitChar` on decimal digits (proof infrastructure). -/
def undigitChar (c : Char) : Nat :=
  c.toNat - 48

theorem ofDecDigits_decDigitsAux :
    ∀ fuel n, n ≤ fuel → ofDecDigits (decDigitsAux fuel n) = n := by
  intro fuel
  induction fuel with
  | zero =>
      intro n hn
      have h0 : n = 0 := Nat.le_zero.mp hn
      subst h0
      rfl
  | succ fuel ih =>
      intro n hn
      by_cases h0 : n = 0
      · subst h0; rfl
      · have hpos : 0 < n := Nat.pos_of_ne_zero h0
        have hdiv : n / 10 ≤ fuel := by
          have := Nat.div_lt_self hpos (by decide : 1 < 10)
          omega
        have hstep : ofDecDigits (decDigitsAux (fuel + 1) n) =
            n % 10 + 10 * ofDecDigits (decDigitsAux fuel (n / 10)) := by
          simp [decDigitsAux, h0, ofDecDigits]
        rw [hstep, ih _ hdiv]
        exact Nat.mod_add_div n 10

theorem decDigitsAux_lt_ten :
    ∀ fuel n d, d ∈ decDigitsAux fuel n → d < 10 := by
  intro fuel
  induction fuel with
  | zero => intro n d hd; simp [decDigitsAux] at hd
  | succ fuel ih =>
      intro n d hd
      by_cases h0 : n = 0
      · subst h0; simp [decDigitsAux] at hd
      · simp only [decDigitsAux, h0, if_false, List.mem_cons] at hd
        rcases hd with h | h
        · subst h; exact Nat.mod_lt n (by decide)
        · exact ih _ _ h

theorem undigitChar_digitChar : ∀ d, d < 10 →
    undigitChar (Nat.digitChar d) = d := by decide

/-- Decimal decode of a rendered counter (proof infrastructure). -/
def decodeDec (s : String) : Nat :=
  ofDecDigits ((s.data.map undigitChar).reverse)

theorem decodeDec_natToDec (n : Nat) (hn : 0 < n) :
    decodeDec (natToDec n) = n := by
  have h0 : n ≠ 0 := Nat.pos_iff_ne_zero.mp hn
  unfold natToDec
  rw [if_neg h0]
  unfold decodeDec
  have hdata : ((((decDigitsAux n n).map Nat.digitChar).reverse).asString).data
      = ((decDigitsAux n n).map Nat.digitChar).reverse := rfl
  rw [hdata, List.map_reverse, List.reverse_reverse, List.map_map]
  have hpt : ∀ d ∈ decDigitsAux n n,
      (undigitChar ∘ Nat.digitChar) d = id d := fun d hd =>
    undigitChar_digitChar d (decDigitsAux_lt_ten n n d hd)
  rw [List.map_congr_left hpt, List.map_id]
  exact ofDecDigits_decDigitsAux n n le_rfl

theorem natToDec_inj_pos {a b : Nat} (ha : 0 < a) (hb : 0 < b)
    (h : natToDec a = natToDec b) : a = b := by
  rw [← decodeDec_natToDec a ha, ← decodeDec_natToDec b hb, h]

theorem lookupWriter_some_mem :
    ∀ (m : List (String × Writer)) (k : String) (w : Writer),
      lookupWriter m k = some w → (k, w) ∈ m := by
  intro m
  induction m with
  | nil => intro k w h; simp [lookupWriter] at h
  | cons p rest ih =>
      intro k w h
      obtain ⟨k2, w2⟩ := p
      by_cases hk : k2 = k
      · subst hk
        simp [lookupWriter] at h
        subst h
        exact List.mem_cons_self _ _
      · simp [lookupWriter, hk] at h
        exact List.mem_cons_of_mem _ (ih k w h)

theorem lookupWriter_cons_of_ne (tok t : String) (w : Writer)
    (m : List (String × Writer)) (h : tok ≠ t) :
    lookupWriter ((tok, w) :: m) t = lookupWriter m t := by
  simp [lookupWriter, h]

theorem fresh_token (s : SqlState) (hg : GoodState s) :
    lookupWriter s.dbToWriter (natToDec (s.instCount + 1)) = none := by
  cases hl : lookupWriter s.dbToWriter (natToDec (s.instCount + 1)) with
  | none => rfl
  | some w0 =>
      have hmem := lookupWriter_some_mem _ _ _ hl
      obtain ⟨m, hm0, hmle, hkey⟩ := hg _ hmem
      have heq : s.instCount + 1 = m :=
        natToDec_inj_pos (by omega) hm0 hkey
      omega

theorem goodState_step (tracing : Bool) (s : SqlState)
    (opts : DatabaseOptions) (w : Writer) (hg : GoodState s) :
    GoodState (OpenWithWriter tracing s opts w).2 ∧
    ∀ t w0, lookupWriter s.dbToWriter t = some w0 →
      lookupWriter (OpenWithWriter tracing s opts w).2.dbToWriter t =
        some w0 := by
  unfold OpenWithWriter
  cases hOpen : Open tracing opts with
  | error e => exact ⟨hg, fun t w0 h => h⟩
  | ok db =>
      dsimp only
      constructor
      · intro p hp
        rcases List.mem_cons.mp hp with h | h
        · subst h
          exact ⟨s.instCount + 1, by omega, le_rfl, rfl⟩
        · obtain ⟨m, hm0, hmle, hkey⟩ := hg p h
          refine ⟨m, hm0, ?_, hkey⟩
          show m ≤ s.instCount + 1
          omega
      · intro t w0 h
        have hfresh := fresh_token s hg
        have hne : natToDec (s.instCount + 1) ≠ t := by
          intro he
          rw [he] at hfresh
          rw [hfresh] at h
          exact Option.noConfusion h
        rw [lookupWriter_cons_of_ne _ _ _ _ hne]
        exact h

theorem runOpens_preserves (tracing : Bool) :
    ∀ (ops : List (DatabaseOptions × Writer)) (s : SqlState), GoodState s →
      GoodState (runOpens tracing s ops) ∧
      ∀ t w0, lookupWriter s.dbToWriter t = some w0 →
        lookupWriter (runOpens tracing s ops).dbToWriter t = some w0 := by
  intro ops
  induction ops with
  | nil => intro s hg; exact ⟨hg, fun t w0 h => h⟩
  | cons q rest ih =>
      intro s hg
      obtain ⟨q1, q2⟩ := q
      have hstep := goodState_step tracing s q1 q2 hg
      have hrec := ih _ hstep.1
      exact ⟨hrec.1, fun t w0 h => hrec.2 t w0 (hstep.2 t w0 h)⟩

/-- C9: the token-to-Writer registry is append-only and sequentially
minted tokens are unique: a successful `OpenWithWriter` increments the
counter, returns a context carrying the decimal rendering of the new
counter value as its token, that token was not previously registered, the
new token resolves to the given Writer, every previously registered token
still resolves to its Writer, the registry invariant is preserved, and
any further sequence of sequential `OpenWithWriter` calls never removes
or remaps an existing entry. -/
theorem openWithWriter_registry_append_only (tracing : Bool) (s : SqlState)
    (opts : DatabaseOptions) (w : Writer) (db : DBHandle)
    (ctx : Option String) (s' : SqlState) (hg : GoodState s)
    (h : OpenWithWriter tracing s opts w = (Except.ok (db, ctx), s')) :
    s'.instCount = s.instCount + 1 ∧
    ctx = some (natToDec s'.instCount) ∧
    lookupWriter s.dbToWriter (natToDec s'.instCount) = none ∧
    lookupWriter s'.dbToWriter (natToDec s'.instCount) = some w ∧
    (∀ t w0, lookupWriter s.dbToWriter t = some w0 →
      lookupWriter s'.dbToWriter t = some w0) ∧
    GoodState s' ∧
    ∀ ops t w0, lookupWriter s'.dbToWriter t = some w0 →
      lookupWriter (runOpens tracing s' ops).dbToWriter t = some w0 := by
  have hstep := goodState_step tracing s opts w hg
  unfold OpenWithWriter at h
  cases hOpen : Open tracing opts with
  | error e => rw [hOpen] at h; exact absurd h (by simp)
  | ok db0 =>
      rw [hOpen] at h
      simp only [Prod.mk.injEq, Except.ok.injEq] at h
      obtain ⟨⟨hdb, hctx⟩, hs⟩ := h
      have hgood : GoodState s' := by
        rw [← hs]
        have := hstep.1
        unfold OpenWithWriter at this
        rw [hOpen] at this
        exact this
      have hpres : ∀ t w0, lookupWriter s.dbToWriter t = some w0 →
          lookupWriter s'.dbToWriter t = some w0 := by
        intro t w0 hl
        have := hstep.2 t w0 hl
        unfold OpenWithWriter at this
        rw [hOpen] at this
        rw [← hs]
        exact this
      refine ⟨?_, ?_, ?_, ?_, hpres, hgood, ?_⟩
      · rw [← hs]
      · rw [← hctx, ← hs]
      · rw [← hs]
        exact fresh_token s hg
      · rw [← hs]
        simp [lookupWriter]
      · intro ops t w0 hl
        exact (runOpens_preserves tracing ops s' hgood).2 t w0 hl

/-- Witness for C9: the first open from the (good) initial state mints
the fresh token `"1"`, which then resolves to the registered Writer. -/
theorem openWithWriter_registry_append_only_witness :
    lookupWriter initSqlState.dbToWriter (natToDec 1) = none ∧
      lookupWriter [("1", Writer.mk "roomserver")] (natToDec 1) =
        some (Writer.mk "roomserver") := by
  have h := openWithWriter_registry_append_only false initSqlState
    (DatabaseOptions.mk "postgres://u@h/db" 1 1 1) (Writer.mk "roomserver")
    (DBHandle.mk "postgres" "postgres://u@h/db" (some 1) (some 1) (some 1))
    (some "1")
    (SqlState.mk [("1", Writer.mk "roomserver")] 1)
    (fun p hp => absurd hp (List.not_mem_nil p)) rfl
  exact ⟨h.2.2.1, h.2.2.2.1⟩

end Sqlutil
